import Mathlib

/-!
Shallow embedding of the core of `streamlit_app.py` (a parametric point-field
animation app) over the real numbers, together with theorems settling the
specification claims about it.

The embedded parts are:
* the precomputed index arrays `i`, `x`, `y` (lines 20-22 of the source);
* the field generator `compute_points` (lines 28-40), given per element by
  the scalar functions `kOf`, `eOf`, `dOf`, `qOf`, `cOf`, `xpOf`, `ypOf`;
* a checked (`Option`-valued) evaluation of the same formula in which every
  division and square root is guarded, modelling Python/numpy domain errors;
* the frame sequencer `ts = np.linspace(0, 2*pi, frames, endpoint=True)`
  (lines 77 and 104);
* the inter-frame delay `max(1e-3, 1.0 / fps)` of the live-playback loop
  (line 89), `Option`-valued because `1.0 / fps` raises `ZeroDivisionError`
  in Python when `fps = 0`;
* the live-playback loop itself (lines 75-89) as an event trace.
-/

namespace ParametricApp

noncomputable section

/-- Number of elements of the index domain: `np.arange(9999, -1, -1)` has
10000 entries. -/
def N : ℕ := 10000

/-- The precomputed index array `i = np.arange(9999, -1, -1)`:
the values 9999, 9998, ..., 1, 0 in descending order. -/
def i : List ℝ := (List.range N).map (fun j : ℕ => (9999 : ℝ) - (j : ℝ))

/-- The abscissa array `x = i.copy()` (a copy of an immutable value is the
value itself in the embedding). -/
def x : List ℝ := i

/-- The array `y = i / 235.0`, elementwise. -/
def y : List ℝ := i.map (fun v => v / 235)

/-- Elementwise `k = (4.0 + np.sin(x / 11.0 + 8.0 * t)) * np.cos(x / 14.0)`
(line 30 of the source). -/
def kOf (t xv : ℝ) : ℝ := (4 + Real.sin (xv / 11 + 8 * t)) * Real.cos (xv / 14)

/-- Elementwise `e = y / 8.0 - 19.0` (line 31). -/
def eOf (yv : ℝ) : ℝ := yv / 8 - 19

/-- Elementwise `d = np.sqrt(k * k + e * e) + np.sin(y / 9.0 + 2.0 * t)`
(line 32). -/
def dOf (t xv yv : ℝ) : ℝ :=
  Real.sqrt (kOf t xv * kOf t xv + eOf yv * eOf yv) + Real.sin (yv / 9 + 2 * t)

/-- Elementwise
`q = 2.0 * np.sin(2.0 * k) + np.sin(y / 17.0) * k * (9.0 + 2.0 * np.sin(y - 3.0 * d))`
(line 33). -/
def qOf (t xv yv : ℝ) : ℝ :=
  2 * Real.sin (2 * kOf t xv) +
    Real.sin (yv / 17) * kOf t xv * (9 + 2 * Real.sin (yv - 3 * dOf t xv yv))

/-- Elementwise `c = (d * d) / 49.0 - t` (line 34). -/
def cOf (t xv yv : ℝ) : ℝ := dOf t xv yv * dOf t xv yv / 49 - t

/-- Elementwise `xp = q + 50.0 * np.cos(c) + 200.0` (line 35). -/
def xpOf (t xv yv : ℝ) : ℝ := qOf t xv yv + 50 * Real.cos (cOf t xv yv) + 200

/-- Elementwise `yp = q * np.sin(c) + d * 39.0 - 440.0` (line 36). -/
def ypOf (t xv yv : ℝ) : ℝ :=
  qOf t xv yv * Real.sin (cOf t xv yv) + dOf t xv yv * 39 - 440

/-- The field generator `compute_points(t)` (lines 28-40): elementwise over
the paired arrays `x` and `y`, returns `X = xp` and the flipped `Y = 400 - yp`. -/
def compute_points (t : ℝ) : List ℝ × List ℝ :=
  ((x.zip y).map (fun p => xpOf t p.1 p.2),
   (x.zip y).map (fun p => 400 - ypOf t p.1 p.2))

/-! ### Spec-side formula (section 4.1 of the spec), for the refinement claim

These definitions follow the spec text, not the source: the index domain `x`
descending from 9999 to 0 with `y = x / 235.0`, and the displayed formulas
`k = (4 + sin(x/11 + 8t))*cos(x/14)`, `e = y/8 - 19`,
`d = sqrt(k^2 + e^2) + sin(y/9 + 2t)`,
`q = 2 sin(2k) + sin(y/17) k (9 + 2 sin(y - 3d))`, `c = d^2/49 - t`,
`X = q + 50 cos(c) + 200`, `Y = 400 - (q sin(c) + 39 d - 440)`. -/

/-- Spec-side IndexDomain: 10000 reals descending from 9999 to 0. -/
def specIndexDomain : List ℝ :=
  (List.range 10000).map (fun j : ℕ => (9999 : ℝ) - (j : ℝ))

/-- Spec formula `k = (4 + sin(x/11 + 8t)) * cos(x/14)`. -/
def spec_k (t xv : ℝ) : ℝ := (4 + Real.sin (xv / 11 + 8 * t)) * Real.cos (xv / 14)

/-- Spec formula `e = y/8 - 19`. -/
def spec_e (yv : ℝ) : ℝ := yv / 8 - 19

/-- Spec formula `d = sqrt(k^2 + e^2) + sin(y/9 + 2t)`. -/
def spec_d (t xv yv : ℝ) : ℝ :=
  Real.sqrt (spec_k t xv ^ 2 + spec_e yv ^ 2) + Real.sin (yv / 9 + 2 * t)

/-- Spec formula `q = 2*sin(2k) + sin(y/17)*k*(9 + 2*sin(y - 3d))`. -/
def spec_q (t xv yv : ℝ) : ℝ :=
  2 * Real.sin (2 * spec_k t xv) +
    Real.sin (yv / 17) * spec_k t xv * (9 + 2 * Real.sin (yv - 3 * spec_d t xv yv))

/-- Spec formula `c = d^2/49 - t`. -/
def spec_c (t xv yv : ℝ) : ℝ := spec_d t xv yv ^ 2 / 49 - t

/-- Spec formula `X = q + 50*cos(c) + 200`. -/
def spec_X (t xv yv : ℝ) : ℝ :=
  spec_q t xv yv + 50 * Real.cos (spec_c t xv yv) + 200

/-- Spec formula `Y = 400 - (q*sin(c) + 39d - 440)`. -/
def spec_Y (t xv yv : ℝ) : ℝ :=
  400 - (spec_q t xv yv * Real.sin (spec_c t xv yv) + 39 * spec_d t xv yv - 440)

/-- Spec-side point computation: both formulas evaluated elementwise over the
IndexDomain `x` with `y = x / 235.0`. -/
def spec_compute_points (t : ℝ) : List ℝ × List ℝ :=
  (specIndexDomain.map (fun v => spec_X t v (v / 235)),
   specIndexDomain.map (fun v => spec_Y t v (v / 235)))

/-! ### Helper lemmas -/

theorem zip_map_self {α β : Type} (f : α → β) :
    ∀ l : List α, l.zip (l.map f) = l.map (fun a => (a, f a))
  | [] => rfl
  | a :: l => by simp [zip_map_self f l]

/-- The pairing `x.zip y` used by `compute_points` is the index array `i`
paired with its pointwise division by 235. -/
theorem x_zip_y : x.zip y = i.map (fun v => (v, v / 235)) :=
  zip_map_self (fun v => v / 235) i

theorem kOf_eq_spec (t xv : ℝ) : kOf t xv = spec_k t xv := rfl

theorem eOf_eq_spec (yv : ℝ) : eOf yv = spec_e yv := rfl

theorem dOf_eq_spec (t xv yv : ℝ) : dOf t xv yv = spec_d t xv yv := by
  unfold dOf spec_d
  rw [pow_two, pow_two, kOf_eq_spec, eOf_eq_spec]

theorem qOf_eq_spec (t xv yv : ℝ) : qOf t xv yv = spec_q t xv yv := by
  unfold qOf spec_q
  rw [kOf_eq_spec, dOf_eq_spec]

theorem cOf_eq_spec (t xv yv : ℝ) : cOf t xv yv = spec_c t xv yv := by
  unfold cOf spec_c
  rw [pow_two, dOf_eq_spec]

theorem xpOf_eq_spec (t xv yv : ℝ) : xpOf t xv yv = spec_X t xv yv := by
  unfold xpOf spec_X
  rw [qOf_eq_spec, cOf_eq_spec]

theorem flip_ypOf_eq_spec (t xv yv : ℝ) : 400 - ypOf t xv yv = spec_Y t xv yv := by
  unfold ypOf spec_Y
  rw [qOf_eq_spec, cOf_eq_spec, dOf_eq_spec]
  ring

/-- Claim C1: for every real `t`, `compute_points t` computes, elementwise over
the IndexDomain `x` with `y = x / 235.0`, exactly the formula of spec section
4.1, returning `X = q + 50 cos(c) + 200` and `Y = 400 - (q sin(c) + 39 d - 440)`. -/
theorem compute_points_matches_spec (t : ℝ) :
    compute_points t = spec_compute_points t := by
  unfold compute_points spec_compute_points
  have hdom : specIndexDomain = i := rfl
  rw [hdom, x_zip_y, List.map_map, List.map_map]
  refine congrArg₂ Prod.mk ?_ ?_
  · exact List.map_congr_left fun v _ => xpOf_eq_spec t v (v / 235)
  · exact List.map_congr_left fun v _ => flip_ypOf_eq_spec t v (v / 235)

/-! ### Checked evaluation (claim C2)

Python/numpy can only fail on this formula through a division by zero or a
square root of a negative number; the checked evaluation guards both and
otherwise computes exactly the source expressions, in source order. -/

/-- Division that fails (like Python's `ZeroDivisionError` / numpy's invalid
result) when the divisor is zero. -/
def safeDiv (a b : ℝ) : Option ℝ := if b = 0 then none else some (a / b)

/-- Square root that fails (like a numpy domain error producing NaN) on a
negative argument. -/
def safeSqrt (a : ℝ) : Option ℝ := if a < 0 then none else some (Real.sqrt a)

/-- Monadic map over `Option`: succeeds only if every element succeeds. -/
def mapMO {α β : Type} (f : α → Option β) : List α → Option (List β)
  | [] => some []
  | a :: l => do
    let b ← f a
    let bs ← mapMO f l
    some (b :: bs)

/-- One element of `compute_points`, with every division and square root
guarded, following the source lines 30-39 in order. -/
def pointChecked (t xv yv : ℝ) : Option (ℝ × ℝ) := do
  let a1 ← safeDiv xv 11
  let a2 ← safeDiv xv 14
  let k := (4 + Real.sin (a1 + 8 * t)) * Real.cos a2
  let a3 ← safeDiv yv 8
  let e := a3 - 19
  let r ← safeSqrt (k * k + e * e)
  let a4 ← safeDiv yv 9
  let d := r + Real.sin (a4 + 2 * t)
  let a5 ← safeDiv yv 17
  let q := 2 * Real.sin (2 * k) + Real.sin a5 * k * (9 + 2 * Real.sin (yv - 3 * d))
  let a6 ← safeDiv (d * d) 49
  let c := a6 - t
  let xp := q + 50 * Real.cos c + 200
  let yp := q * Real.sin c + d * 39 - 440
  some (xp, 400 - yp)

/-- `compute_points` with every partial operation guarded, over the same
paired arrays. -/
def compute_points_checked (t : ℝ) : Option (List ℝ × List ℝ) :=
  (mapMO (fun p => pointChecked t p.1 p.2) (x.zip y)).map
    (fun l => (l.map Prod.fst, l.map Prod.snd))

/-- The checked element evaluation never fails, for any real inputs: all
divisors are nonzero constants and the square root argument `k*k + e*e` is a
sum of squares. -/
theorem pointChecked_eq (t xv yv : ℝ) :
    pointChecked t xv yv = some (xpOf t xv yv, 400 - ypOf t xv yv) := by
  have h : ¬ ((4 + Real.sin (xv / 11 + 8 * t)) * Real.cos (xv / 14) *
        ((4 + Real.sin (xv / 11 + 8 * t)) * Real.cos (xv / 14)) +
        (yv / 8 - 19) * (yv / 8 - 19) < 0) := by
    have h1 := mul_self_nonneg ((4 + Real.sin (xv / 11 + 8 * t)) * Real.cos (xv / 14))
    have h2 := mul_self_nonneg (yv / 8 - 19)
    push_neg
    linarith
  simp only [pointChecked, safeDiv, safeSqrt,
    if_neg (by norm_num : ¬ ((11 : ℝ) = 0)), if_neg (by norm_num : ¬ ((14 : ℝ) = 0)),
    if_neg (by norm_num : ¬ ((8 : ℝ) = 0)), if_neg (by norm_num : ¬ ((9 : ℝ) = 0)),
    if_neg (by norm_num : ¬ ((17 : ℝ) = 0)), if_neg (by norm_num : ¬ ((49 : ℝ) = 0)),
    if_neg h, Option.bind_eq_bind, Option.some_bind]
  rfl

/-- If the element function succeeds everywhere with value `g`, the monadic
map succeeds with the pointwise map. -/
theorem mapMO_eq_map {α β : Type} (f : α → Option β) (g : α → β) :
    ∀ l : List α, (∀ a ∈ l, f a = some (g a)) → mapMO f l = some (l.map g)
  | [], _ => rfl
  | a :: l, h => by
    have ha : f a = some (g a) := h a (List.mem_cons_self a l)
    have hl : mapMO f l = some (l.map g) :=
      mapMO_eq_map f g l (fun b hb => h b (List.mem_cons_of_mem a hb))
    simp [mapMO, ha, hl]

theorem i_length : i.length = 10000 := by
  unfold i
  rw [List.length_map, List.length_range]
  rfl

theorem x_length : x.length = 10000 := i_length

theorem y_length : y.length = 10000 := by
  unfold y
  rw [List.length_map]
  exact i_length

theorem x_zip_y_length : (x.zip y).length = 10000 := by
  rw [List.length_zip, x_length, y_length, Nat.min_self]

/-- Claim C2: for every (finite) real `t`, `compute_points t` returns two
arrays of exactly 10000 elements each, and the fully guarded evaluation
succeeds on every element with the same values — no division by zero and no
negative square-root argument arises. -/
theorem compute_points_safe (t : ℝ) :
    (compute_points t).1.length = 10000 ∧
    (compute_points t).2.length = 10000 ∧
    compute_points_checked t = some (compute_points t) := by
  refine ⟨?_, ?_, ?_⟩
  · simp only [compute_points]
    rw [List.length_map]
    exact x_zip_y_length
  · simp only [compute_points]
    rw [List.length_map]
    exact x_zip_y_length
  · unfold compute_points_checked
    rw [mapMO_eq_map (fun p => pointChecked t p.1 p.2)
      (fun p => (xpOf t p.1 p.2, 400 - ypOf t p.1 p.2)) (x.zip y)
      (fun p _ => pointChecked_eq t p.1 p.2)]
    simp [compute_points, List.map_map, Function.comp]

/-! ### Frame sequencer (claims C3, C4) -/

/-- Model of `np.linspace(start, stop, num, endpoint=True)` as used on lines
77 and 104: `num` values `start + (stop - start) * j / (num - 1)`. For
`num = 1` numpy returns `[start]`, matched here because `0 / 0 = 0` in Lean
real division; for `num ≥ 2` the last value equals `stop` exactly. -/
def linspace (start stop : ℝ) (num : ℕ) : List ℝ :=
  (List.range num).map
    (fun j : ℕ => start + (stop - start) * (j : ℝ) / ((num : ℝ) - 1))

/-- The t-values of both the live-playback and the export path:
`ts = np.linspace(0.0, 2.0 * np.pi, frames, endpoint=True)`. -/
def ts (frames : ℕ) : List ℝ := linspace 0 (2 * Real.pi) frames

theorem linspace_length (start stop : ℝ) (num : ℕ) :
    (linspace start stop num).length = num := by
  unfold linspace
  rw [List.length_map, List.length_range]

theorem linspace_getD {num j : ℕ} (start stop : ℝ) (h : j < num) :
    (linspace start stop num).getD j 0 =
      start + (stop - start) * (j : ℝ) / ((num : ℝ) - 1) := by
  unfold linspace
  rw [List.getD_eq_getElem?_getD, List.getElem?_map, List.getElem?_range h]
  rfl

theorem range_five : List.range 5 = [0, 1, 2, 3, 4] := rfl

theorem ts_five : ts 5 = [0, Real.pi / 2, Real.pi, 3 * Real.pi / 2, 2 * Real.pi] := by
  unfold ts linspace
  rw [range_five]
  simp only [List.map_cons, List.map_nil]
  norm_num
  and_intros <;> ring

/-- Claim C3: for `start = 0`, `end = 2 * pi` and `count = n ≥ 2`, the frame
sequencer produces exactly `n` t-values, evenly spaced (all consecutive
differences equal `2 * pi / (n - 1)`), with both endpoints `0` and `2 * pi`
included; for `count = 5` it yields exactly `[0, pi/2, pi, 3*pi/2, 2*pi]`. -/
theorem ts_evenly_spaced (n : ℕ) (hn : 2 ≤ n) :
    (ts n).length = n ∧
    (ts n).getD 0 0 = 0 ∧
    (ts n).getD (n - 1) 0 = 2 * Real.pi ∧
    (∀ j : ℕ, j + 1 < n →
      (ts n).getD (j + 1) 0 - (ts n).getD j 0 = 2 * Real.pi / ((n : ℝ) - 1)) ∧
    ts 5 = [0, Real.pi / 2, Real.pi, 3 * Real.pi / 2, 2 * Real.pi] := by
  have hn0 : 0 < n := lt_of_lt_of_le (by norm_num) hn
  have hne : (n : ℝ) - 1 ≠ 0 := by
    have h2 : (2 : ℝ) ≤ (n : ℝ) := by exact_mod_cast hn
    intro hc
    nlinarith
  refine ⟨linspace_length 0 (2 * Real.pi) n, ?_, ?_, ?_, ts_five⟩
  · rw [show ts n = linspace 0 (2 * Real.pi) n from rfl, linspace_getD 0 (2 * Real.pi) hn0]
    norm_num
  · rw [show ts n = linspace 0 (2 * Real.pi) n from rfl,
      linspace_getD 0 (2 * Real.pi) (Nat.sub_lt hn0 (by norm_num))]
    have h1 : 1 ≤ n := le_trans (by norm_num) hn
    have hcast : ((n - 1 : ℕ) : ℝ) = (n : ℝ) - 1 := by
      rw [Nat.cast_sub h1, Nat.cast_one]
    rw [hcast]
    field_simp
  · intro j hj
    have hj1 : j < n := Nat.lt_of_succ_lt hj
    rw [show ts n = linspace 0 (2 * Real.pi) n from rfl,
      linspace_getD 0 (2 * Real.pi) hj, linspace_getD 0 (2 * Real.pi) hj1]
    push_cast
    ring

/-- Witness for claim C3 at `n = 5`. -/
theorem ts_evenly_spaced_witness :
    (2 ≤ 5) ∧
    ((ts 5).length = 5 ∧
     (ts 5).getD 0 0 = 0 ∧
     (ts 5).getD (5 - 1) 0 = 2 * Real.pi ∧
     (∀ j : ℕ, j + 1 < 5 →
       (ts 5).getD (j + 1) 0 - (ts 5).getD j 0 = 2 * Real.pi / ((5 : ℝ) - 1)) ∧
     ts 5 = [0, Real.pi / 2, Real.pi, 3 * Real.pi / 2, 2 * Real.pi]) :=
  ⟨by norm_num, ts_evenly_spaced 5 (by norm_num)⟩

/-- Counterexample for claim C4: a sampling spec with `count = 1` is NOT
rejected before frame generation — the sequencer does yield a (one-element)
sequence of t-values for it. -/
theorem ts_one_not_rejected : ts 1 ≠ [] := by
  unfold ts linspace
  rw [show List.range 1 = [0] from rfl]
  simp

/-- Claim C4 as amended: the code performs no count validation at all; for
`count = 1` the sequencer yields the single t-value `[start]` (here `[0]`)
rather than signaling a configuration error (the UI slider keeps the frame
count in `[30, 360]`, so the degenerate spec is merely unreachable, not
rejected). -/
theorem linspace_count_one (start stop : ℝ) : linspace start stop 1 = [start] := by
  unfold linspace
  rw [show List.range 1 = [0] from rfl]
  simp

/-! ### Live-playback delay (claims C5, C9) -/

/-- The inter-frame pause of the live-playback loop, line 89 of the source:
`time.sleep(max(1e-3, 1.0 / fps))`. In Python `1.0 / fps` raises
`ZeroDivisionError` when `fps = 0`, so the computation is partial. -/
def frameDelay (fps : ℤ) : Option ℝ :=
  if fps = 0 then none else some (max 1e-3 (1 / (fps : ℝ)))

/-- The delay formula as the spec words it: `max(1 millisecond, 1/fps)`
seconds. -/
def specDelay (fps : ℤ) : ℝ := max (1 / 1000) (1 / (fps : ℝ))

/-- Events of the live-playback loop: rendering and displaying one frame,
and sleeping between frames. -/
inductive Ev : Type
  | render (t : ℝ) (frame : List ℝ × List ℝ) : Ev
  | sleep (d : ℝ) : Ev

/-- Trace of the live-playback loop (lines 75-89): for each `t` of `ts`, in
order, compute and display the frame, then sleep; the trace is `none` when
the delay computation raises. -/
def playLive (frames : ℕ) (fps : ℤ) : Option (List Ev) :=
  (mapMO (fun t => (frameDelay fps).map
    (fun d => [Ev.render t (compute_points t), Ev.sleep d])) (ts frames)).map
    List.flatten

/-- Counterexample for claim C5: at the out-of-range value `fps = 0` the
per-frame delay computation does not complete — `1.0 / fps` raises
`ZeroDivisionError` in the source. -/
theorem frameDelay_zero_crashes : frameDelay 0 = none := by
  unfold frameDelay
  rw [if_pos rfl]

/-- Claim C5 as amended: for every nonzero integer `fps` — including every
negative value — the per-frame delay computation completes without
crashing; at `fps = 0` it raises `ZeroDivisionError`. -/
theorem frameDelay_total_of_nonzero (fps : ℤ) (h : fps ≠ 0) :
    ∃ v : ℝ, frameDelay fps = some v :=
  ⟨max 1e-3 (1 / (fps : ℝ)), by unfold frameDelay; rw [if_neg h]⟩

/-- Witness for the amended claim C5 at the out-of-range value `fps = -5`. -/
theorem frameDelay_total_of_nonzero_witness :
    (-5 : ℤ) ≠ 0 ∧ ∃ v : ℝ, frameDelay (-5) = some v :=
  ⟨by norm_num, frameDelay_total_of_nonzero (-5) (by norm_num)⟩

/-- Claim C9: for every `fps ≥ 1` the pause between consecutive frames is
exactly `max(1 ms, 1/fps)` seconds, and the live-playback trace renders and
displays each frame in order and then sleeps for exactly that amount before
the next frame. -/
theorem live_delay_correct (n : ℕ) (fps : ℤ) (h : 1 ≤ fps) :
    frameDelay fps = some (specDelay fps) ∧
    playLive n fps = some ((ts n).flatMap
      (fun t => [Ev.render t (compute_points t), Ev.sleep (specDelay fps)])) := by
  have h0 : fps ≠ 0 := by omega
  have hms : (1e-3 : ℝ) = 1 / 1000 := by norm_num
  have hd : frameDelay fps = some (specDelay fps) := by
    unfold frameDelay specDelay
    rw [if_neg h0, hms]
  refine ⟨hd, ?_⟩
  unfold playLive
  rw [mapMO_eq_map _
    (fun t => [Ev.render t (compute_points t), Ev.sleep (specDelay fps)]) (ts n)
    (fun t _ => by rw [hd]; rfl)]
  rw [List.flatMap_def]
  rfl

/-- Witness for claim C9 at `fps = 30`, `frames = 2`. -/
theorem live_delay_correct_witness :
    (1 : ℤ) ≤ 30 ∧
    (frameDelay 30 = some (specDelay 30) ∧
     playLive 2 30 = some ((ts 2).flatMap
       (fun t => [Ev.render t (compute_points t), Ev.sleep (specDelay 30)]))) :=
  ⟨by norm_num, live_delay_correct 2 30 (by norm_num)⟩

/-! ### Periodicity in t (claim C6) -/

theorem kOf_periodic (t xv : ℝ) : kOf (t + 2 * Real.pi) xv = kOf t xv := by
  unfold kOf
  have h : xv / 11 + 8 * (t + 2 * Real.pi) =
      (xv / 11 + 8 * t) + (8 : ℤ) * (2 * Real.pi) := by
    push_cast
    ring
  rw [h, Real.sin_add_int_mul_two_pi]

theorem dOf_periodic (t xv yv : ℝ) : dOf (t + 2 * Real.pi) xv yv = dOf t xv yv := by
  unfold dOf
  rw [kOf_periodic]
  have h : yv / 9 + 2 * (t + 2 * Real.pi) =
      (yv / 9 + 2 * t) + (2 : ℤ) * (2 * Real.pi) := by
    push_cast
    ring
  rw [h, Real.sin_add_int_mul_two_pi]

theorem qOf_periodic (t xv yv : ℝ) : qOf (t + 2 * Real.pi) xv yv = qOf t xv yv := by
  unfold qOf
  rw [kOf_periodic, dOf_periodic]

theorem cOf_shift (t xv yv : ℝ) :
    cOf (t + 2 * Real.pi) xv yv = cOf t xv yv - 2 * Real.pi := by
  unfold cOf
  rw [dOf_periodic]
  ring

theorem xpOf_periodic (t xv yv : ℝ) : xpOf (t + 2 * Real.pi) xv yv = xpOf t xv yv := by
  unfold xpOf
  rw [qOf_periodic, cOf_shift, Real.cos_sub_two_pi]

theorem ypOf_periodic (t xv yv : ℝ) : ypOf (t + 2 * Real.pi) xv yv = ypOf t xv yv := by
  unfold ypOf
  rw [qOf_periodic, cOf_shift, Real.sin_sub_two_pi, dOf_periodic]

/-- Claim C6: `compute_points` is periodic in `t` with period `2 * pi` — in
exact real arithmetic the two frames are equal, because every occurrence of
`t` sits inside a trigonometric term whose argument shifts by an exact
integer multiple of `2 * pi`. -/
theorem compute_points_periodic (t : ℝ) :
    compute_points (t + 2 * Real.pi) = compute_points t := by
  unfold compute_points
  refine congrArg₂ Prod.mk ?_ ?_
  · exact List.map_congr_left fun p _ => xpOf_periodic t p.1 p.2
  · exact List.map_congr_left fun p _ => by rw [ypOf_periodic]

/-! ### Restartability and determinism (claim C7) -/

/-- The sequence of `(t, CoordinateFrame)` pairs produced for a frame count:
the spec's `frames(spec)`, as generated by both the live path and the export
path. -/
def framesSeq (n : ℕ) : List (ℝ × (List ℝ × List ℝ)) :=
  (ts n).map (fun t => (t, compute_points t))

/-- Claim C7: two generations of the frame sequence from the same sampling
spec are identical, and every emitted frame is determined purely by its
t-value via `compute_points` — a pure function with no hidden state. -/
theorem framesSeq_restartable (n : ℕ) (r1 r2 : List (ℝ × (List ℝ × List ℝ)))
    (h1 : r1 = framesSeq n) (h2 : r2 = framesSeq n) :
    r1 = r2 ∧ ∀ p ∈ r1, p.2 = compute_points p.1 := by
  subst h1
  subst h2
  refine ⟨rfl, ?_⟩
  intro p hp
  rcases List.mem_map.mp hp with ⟨u, _, rfl⟩
  rfl

/-- Witness for claim C7: two runs with `count = 2`. -/
theorem framesSeq_restartable_witness :
    framesSeq 2 = framesSeq 2 ∧ ∀ p ∈ framesSeq 2, p.2 = compute_points p.1 :=
  framesSeq_restartable 2 (framesSeq 2) (framesSeq 2) rfl rfl

/-! ### IndexDomain invariants (claim C8) -/

theorem i_getD {j : ℕ} (h : j < 10000) : i.getD j 0 = 9999 - (j : ℝ) := by
  unfold i N
  rw [List.getD_eq_getElem?_getD, List.getElem?_map, List.getElem?_range h]
  rfl

/-- `compute_points` as an explicit state transformer on the global arrays
`(x, y)`: the source body only reads the globals and assigns nothing to
them, so the state it returns is the state it received. -/
def computePointsSt (s : List ℝ × List ℝ) (t : ℝ) :
    (List ℝ × List ℝ) × (List ℝ × List ℝ) :=
  (((s.1.zip s.2).map (fun p => xpOf t p.1 p.2),
    (s.1.zip s.2).map (fun p => 400 - ypOf t p.1 p.2)), s)

/-- Claim C8: the IndexDomain is an ordered sequence of exactly 10000 reals
descending from 9999 to 0 (element `j` is `9999 - j`, strictly decreasing),
and a call to `compute_points` leaves the global arrays `x` and `y` (hence
their lengths) unchanged: the state transformer returns its input state, and
`compute_points` is exactly its value part started on `(x, y)`. -/
theorem indexDomain_invariant :
    i.length = 10000 ∧
    (∀ j : ℕ, j < 10000 → i.getD j 0 = 9999 - (j : ℝ)) ∧
    i.getD 0 0 = 9999 ∧
    i.getD 9999 0 = 0 ∧
    (∀ j : ℕ, j + 1 < 10000 → i.getD (j + 1) 0 < i.getD j 0) ∧
    (∀ (s : List ℝ × List ℝ) (t : ℝ), (computePointsSt s t).2 = s) ∧
    (∀ t : ℝ, compute_points t = (computePointsSt (x, y) t).1) := by
  refine ⟨i_length, fun j h => i_getD h, ?_, ?_, ?_, fun s t => rfl,
    fun t => by rw [compute_points, computePointsSt]⟩
  · rw [i_getD (by norm_num)]
    norm_num
  · rw [i_getD (by norm_num)]
    norm_num
  · intro j h
    rw [i_getD h, i_getD (Nat.lt_of_succ_lt h)]
    push_cast
    linarith

/-! ### Numerical bounds on the intermediates (claim C10) -/

theorem mem_i_bounds {v : ℝ} (hv : v ∈ i) : 0 ≤ v ∧ v ≤ 9999 := by
  unfold i at hv
  rcases List.mem_map.mp hv with ⟨j, hj, rfl⟩
  have hj10 : j < 10000 := List.mem_range.mp hj
  have hjle : (j : ℝ) ≤ 9999 := by exact_mod_cast Nat.lt_succ_iff.mp hj10
  have hj0 : (0 : ℝ) ≤ (j : ℝ) := Nat.cast_nonneg j
  constructor
  · linarith
  · linarith

/-- Claim C10: for every real `t` and every element `v` of the IndexDomain
(so `y = v / 235`), the intermediate `e = y/8 - 19` lies in the interval
`[-19, 9999/(235*8) - 19]`, hence the square-root argument `k*k + e*e` is at
least `e*e > 185` — in particular nonnegative, so the square root never
receives a negative argument — and `d = sqrt(k*k + e*e) + sin(y/9 + 2t)` is
strictly greater than 12. -/
theorem intermediate_bounds (t v : ℝ) (hv : v ∈ i) :
    (-19 ≤ eOf (v / 235) ∧ eOf (v / 235) ≤ 9999 / (235 * 8) - 19) ∧
    185 < eOf (v / 235) * eOf (v / 235) ∧
    eOf (v / 235) * eOf (v / 235) ≤
      kOf t v * kOf t v + eOf (v / 235) * eOf (v / 235) ∧
    0 ≤ kOf t v * kOf t v + eOf (v / 235) * eOf (v / 235) ∧
    12 < dOf t v (v / 235) := by
  obtain ⟨hv0, hv9999⟩ := mem_i_bounds hv
  have hE : eOf (v / 235) = v / 1880 - 19 := by
    unfold eOf
    ring
  have hdivLB : (0 : ℝ) ≤ v / 1880 := div_nonneg hv0 (by norm_num)
  have hdivUB : v / 1880 ≤ 9999 / 1880 :=
    (div_le_div_iff_of_pos_right (by norm_num)).mpr hv9999
  have heLB : -19 ≤ eOf (v / 235) := by
    rw [hE]
    linarith
  have heUB : eOf (v / 235) ≤ -(25721 / 1880) := by
    rw [hE]
    linarith
  have hksq := mul_self_nonneg (kOf t v)
  have hesq : 185 < eOf (v / 235) * eOf (v / 235) := by
    nlinarith [mul_self_nonneg (eOf (v / 235) + 25721 / 1880)]
  refine ⟨⟨heLB, by rw [hE]; linarith⟩, hesq, by linarith, by linarith, ?_⟩
  have hnegE : (0 : ℝ) ≤ -eOf (v / 235) := by linarith
  have habs : Real.sqrt (eOf (v / 235) * eOf (v / 235)) = -eOf (v / 235) := by
    rw [show eOf (v / 235) * eOf (v / 235) =
      (-eOf (v / 235)) * (-eOf (v / 235)) from by ring]
    exact Real.sqrt_mul_self hnegE
  have hsqrt : Real.sqrt (eOf (v / 235) * eOf (v / 235)) ≤
      Real.sqrt (kOf t v * kOf t v + eOf (v / 235) * eOf (v / 235)) :=
    Real.sqrt_le_sqrt (by linarith)
  have hsin := Real.neg_one_le_sin (v / 235 / 9 + 2 * t)
  unfold dOf
  linarith [habs ▸ hsqrt]

/-- Witness for claim C10 at `t = 0` and the first domain element `v = 9999`. -/
theorem intermediate_bounds_witness :
    (9999 : ℝ) ∈ i ∧
    ((-19 ≤ eOf ((9999 : ℝ) / 235) ∧
      eOf ((9999 : ℝ) / 235) ≤ 9999 / (235 * 8) - 19) ∧
     185 < eOf ((9999 : ℝ) / 235) * eOf ((9999 : ℝ) / 235) ∧
     eOf ((9999 : ℝ) / 235) * eOf ((9999 : ℝ) / 235) ≤
       kOf 0 9999 * kOf 0 9999 + eOf ((9999 : ℝ) / 235) * eOf ((9999 : ℝ) / 235) ∧
     0 ≤ kOf 0 9999 * kOf 0 9999 + eOf ((9999 : ℝ) / 235) * eOf ((9999 : ℝ) / 235) ∧
     12 < dOf 0 9999 ((9999 : ℝ) / 235)) := by
  have hv : (9999 : ℝ) ∈ i := by
    unfold i
    refine List.mem_map.mpr ⟨0, List.mem_range.mpr (by unfold N; norm_num), by norm_num⟩
  exact ⟨hv, intermediate_bounds 0 9999 hv⟩

end

end ParametricApp
